import Mathlib

/-!
Verification of the trademynd trading-journal core against its source.

The frontend dashboard logic (`frontend/app/dashboard/page.tsx`) and the
Telegram connect widget are embedded directly from the TypeScript source.
The backend AI pipeline (extraction engine, confidence gate, confirmation
state machine, quota governor, trade commit interface) is not present in
the repository snapshot; those parts are modelled from the specification,
as marked on each definition.
-/

namespace Trademynd

/-! ## Dashboard (embedded from frontend/app/dashboard/page.tsx) -/

/-- A trade row as consumed by the dashboard (`interface Trade`).
`trade_timestamp` abstracts the ISO date string: `none` stands for a null or
unparseable string (which `toTimestamp` maps to 0), `some ms` for a string
parsing to epoch-milliseconds `ms`. -/
structure DashTrade where
  id : String
  instrument : String
  direction : String
  result : String
  r_multiple : Option ℚ
  trade_timestamp : Option ℕ
deriving DecidableEq, Repr

/-- `toTimestamp` from the dashboard: null/invalid dates become 0. -/
def toTimestamp (value : Option ℕ) : ℕ :=
  match value with
  | none => 0
  | some ms => ms

/-- One step of a stable descending-timestamp insertion sort: `t` is placed
before the first element whose timestamp is at most `t`'s. -/
def insertDesc (t : DashTrade) : List DashTrade → List DashTrade
  | [] => [t]
  | u :: rest =>
    if toTimestamp u.trade_timestamp ≤ toTimestamp t.trade_timestamp then t :: u :: rest
    else u :: insertDesc t rest

/-- The descending-timestamp sort used by `getCurrentStreak`
(`[...trades].sort((a, b) => toTimestamp(b) - toTimestamp(a))`); JS `sort`
is required to be stable, and this insertion sort is stable in the same
sense (ties keep their original relative order). -/
def sortByTimestampDesc (trades : List DashTrade) : List DashTrade :=
  trades.foldr insertDesc []

/-- The loop body of `getCurrentStreak`: carries `currentType` (initially
the empty string) and `count`, skipping trades whose result is neither
WIN nor LOSS, and stopping at the first result differing from the
current type. -/
def streakScan : List DashTrade → String → ℕ → String × ℕ
  | [], ty, n => (ty, n)
  | t :: rest, ty, n =>
    if t.result ≠ "WIN" ∧ t.result ≠ "LOSS" then streakScan rest ty n
    else if ty = "" then streakScan rest t.result 1
    else if t.result = ty then streakScan rest ty (n + 1)
    else (ty, n)

/-- `getCurrentStreak` from the dashboard source. -/
def getCurrentStreak (trades : List DashTrade) : String :=
  if trades.length = 0 then "0"
  else
    let sorted := sortByTimestampDesc trades
    let p := streakScan sorted "" 0
    if p.1 = "" ∨ p.2 = 0 then "0"
    else toString p.2 ++ (if p.1 = "WIN" then "W" else "L")

/-- A trade counts toward a streak exactly when its result is WIN or LOSS. -/
def isWinLoss (t : DashTrade) : Bool :=
  t.result = "WIN" || t.result = "LOSS"

/-- Length of the leading run of equal results in a list of trades. -/
def leadRunLen : List DashTrade → ℕ
  | [] => 0
  | t :: rest => 1 + (rest.takeWhile (fun u => u.result = t.result)).length

/-- `winCount`: number of trades with result WIN. -/
def winCount (trades : List DashTrade) : ℕ :=
  (trades.filter (fun t => t.result = "WIN")).length

/-- `winRate` from the dashboard: `totalTrades ? (winCount / totalTrades) * 100 : 0`.
JS numbers are modelled as rationals. -/
def winRate (trades : List DashTrade) : ℚ :=
  if trades.length = 0 then 0
  else ((winCount trades : ℚ) / (trades.length : ℚ)) * 100

/-! ## Telegram connect widget (embedded from the settings widget source) -/

/-- `maskChatId` from the Telegram connect widget.  A `none` argument stands
for a null/undefined `telegram_chat_id`; `some n` for a numeric id whose
JS `String(chatId)` rendering is the decimal string `toString n`.
`raw.slice(-4)` is `drop (length - 4)`; `'*'.repeat(Math.max(raw.length - 4, 2))`
is `replicate (max (length - 4) 2)` (truncated subtraction agrees with
`Math.max` here since a negative JS difference is also clamped to 2). -/
def maskChatId (chatId : Option ℤ) : String :=
  match chatId with
  | none => "Unavailable"
  | some chatId =>
    let raw := (toString chatId).data
    let visible := raw.drop (raw.length - 4)
    let masked := List.replicate (max (raw.length - 4) 2) (Char.ofNat 42)
    String.mk (masked ++ visible)

/-- The last four characters of a string (the whole string when shorter),
i.e. JS `s.slice(-4)`. -/
def lastFour (s : String) : List Char :=
  s.data.drop (s.data.length - 4)

/-! ## Backend core, modelled from the spec

The FastAPI backend implementing §§4.1–4.5 of the spec is not part of the
repository snapshot (only its design documents, API docs and frontend
callers are).  The definitions below are therefore modelled from the
specification text, as their doc comments state.
-/

/-- Auto-accept threshold (default 0.8) from §4.3 / AI Processing Rules. -/
def AUTO_ACCEPT_THRESHOLD : ℚ := mkRat 8 10

/-- The value the deterministic floor caps confidence at when instrument or
direction is absent: half the auto-accept threshold (any fixed value
strictly below the threshold realizes §4.2's "forced below the auto-accept
threshold"). -/
def CONFIDENCE_FLOOR_CAP : ℚ := mkRat 4 10

/-- Session TTL: 15 minutes (§4.3; matches `TOKEN_LIFETIME_SECONDS = 15 * 60`
in the connect widget). -/
def SESSION_TTL_SECONDS : ℕ := 15 * 60

/-- The structured trade candidate of §3.  Enumerated fields are carried as
strings, as in the model's JSON output and the SQL CHECK constraints. -/
structure TradeCandidate where
  instrument : Option String
  direction : Option String
  entry_price : Option ℚ
  exit_price : Option ℚ
  stop_loss : Option ℚ
  take_profit : Option ℚ
  result : Option String
  r_multiple : Option ℚ
  emotion : Option String
  mistakes : List String
  notes : Option String
  confidence : ℚ
deriving DecidableEq, Repr

/-- Raw structured output of the model collaborator, before validation. -/
structure ModelOutput where
  instrument : Option String
  direction : Option String
  entry_price : Option ℚ
  exit_price : Option ℚ
  stop_loss : Option ℚ
  take_profit : Option ℚ
  result : Option String
  r_multiple : Option ℚ
  emotion : Option String
  mistakes : List String
  notes : Option String
  confidence : ℚ
deriving DecidableEq, Repr

/-- A direction value accepted by the schema / DB (`LONG` or `SHORT`). -/
def validDirection (d : String) : Bool :=
  d = "LONG" || d = "SHORT"

/-- A result value accepted by the schema / DB. -/
def validResult (r : String) : Bool :=
  r = "WIN" || r = "LOSS" || r = "BREAK_EVEN"

/-- Modelled from the spec: §4.2/§9 strict schema validation of the model
collaborator's structured output — confidence must be in [0,1] and
enumerated fields, when present, must hold allowed values; any deviation
is ExtractionFailed. -/
def validOutput (m : ModelOutput) : Bool :=
  decide (0 ≤ m.confidence) && decide (m.confidence ≤ 1)
    && (match m.direction with | none => true | some d => validDirection d)
    && (match m.result with | none => true | some r => validResult r)

/-- Carry the validated model output over into a candidate, field by field. -/
def toCandidate (m : ModelOutput) : TradeCandidate :=
  { instrument := m.instrument
    direction := m.direction
    entry_price := m.entry_price
    exit_price := m.exit_price
    stop_loss := m.stop_loss
    take_profit := m.take_profit
    result := m.result
    r_multiple := m.r_multiple
    emotion := m.emotion
    mistakes := m.mistakes
    notes := m.notes
    confidence := m.confidence }

/-- Modelled from the spec: §4.2 deterministic confidence floor — whenever
instrument or direction is absent, the self-reported confidence is forced
strictly below the auto-accept threshold (here: capped at half of it),
regardless of what the model reported. -/
def applyConfidenceFloor (c : TradeCandidate) : TradeCandidate :=
  if c.instrument.isNone || c.direction.isNone then
    { c with confidence := min c.confidence CONFIDENCE_FLOOR_CAP }
  else c

/-- Modelled from the spec: the Extraction Engine of §4.2 (absent backend
`ai_service`).  Parses/validates the model output against the fixed schema
(`none` = ExtractionFailed) and applies the deterministic confidence floor. -/
def extractCandidate (m : ModelOutput) : Option TradeCandidate :=
  if validOutput m then some (applyConfidenceFloor (toCandidate m)) else none

/-- Status of a confirmation session (§3). -/
inductive SessionStatus where
  | PENDING
  | CONFIRMED
  | EDITED
  | REJECTED
  | EXPIRED
deriving DecidableEq, Repr

/-- The pending-review state for one chat/user (§3). -/
structure ConfirmationSession where
  session_id : ℕ
  owning_user_id : ℕ
  candidate : TradeCandidate
  created_at : ℕ
  expires_at : ℕ
  status : SessionStatus
deriving DecidableEq, Repr

/-- Outcome of the confidence gate: immediate forward to the Trade Commit
Interface, or a new pending confirmation session. -/
inductive GateDecision where
  | autoCommit (c : TradeCandidate)
  | awaitConfirmation (s : ConfirmationSession)
deriving DecidableEq, Repr

/-- Modelled from the spec: the Confidence Gate of §4.3 (absent backend).
Confidence at or above the threshold forwards immediately; below it, a
PENDING session with a 15-minute TTL is created instead. -/
def confidenceGate (c : TradeCandidate) (uid sid now : ℕ) : GateDecision :=
  if AUTO_ACCEPT_THRESHOLD ≤ c.confidence then .autoCommit c
  else .awaitConfirmation
    { session_id := sid
      owning_user_id := uid
      candidate := c
      created_at := now
      expires_at := now + SESSION_TTL_SECONDS
      status := .PENDING }

/-- A user edit payload: every field optional; a supplied field overrides
the extracted one, an omitted field keeps it (§4.3, §9). -/
structure EditPayload where
  instrument : Option String
  direction : Option String
  entry_price : Option ℚ
  exit_price : Option ℚ
  stop_loss : Option ℚ
  take_profit : Option ℚ
  result : Option String
  r_multiple : Option ℚ
  emotion : Option String
  mistakes : Option (List String)
  notes : Option String
deriving DecidableEq, Repr

/-- User-supplied field wins; omitted field keeps the extracted value. -/
def overrideField {α : Type} (edited kept : Option α) : Option α :=
  match edited with
  | some v => some v
  | none => kept

/-- Modelled from the spec: §4.3 merge of a user edit into the held
candidate — user-supplied fields override extracted fields, omitted fields
keep the extracted value, and confidence becomes 1.0 (human-verified). -/
def mergeEdit (c : TradeCandidate) (e : EditPayload) : TradeCandidate :=
  { instrument := overrideField e.instrument c.instrument
    direction := overrideField e.direction c.direction
    entry_price := overrideField e.entry_price c.entry_price
    exit_price := overrideField e.exit_price c.exit_price
    stop_loss := overrideField e.stop_loss c.stop_loss
    take_profit := overrideField e.take_profit c.take_profit
    result := overrideField e.result c.result
    r_multiple := overrideField e.r_multiple c.r_multiple
    emotion := overrideField e.emotion c.emotion
    mistakes := (overrideField e.mistakes (some c.mistakes)).getD c.mistakes
    notes := overrideField e.notes c.notes
    confidence := 1 }

/-- Inputs a confirmation session can receive (§4.3). -/
inductive UserInput where
  | confirm
  | reject
  | edit (e : EditPayload)
  | expire
deriving Repr

/-- CONFIRMED, REJECTED and EXPIRED are terminal (§4.3). -/
def terminalStatus (st : SessionStatus) : Bool :=
  st = SessionStatus.CONFIRMED || st = SessionStatus.REJECTED || st = SessionStatus.EXPIRED

/-- The allowed transition edges of §4.3. -/
def allowedEdge : SessionStatus → SessionStatus → Bool
  | .PENDING, .CONFIRMED => true
  | .PENDING, .EDITED => true
  | .EDITED, .CONFIRMED => true
  | .PENDING, .REJECTED => true
  | .PENDING, .EXPIRED => true
  | _, _ => false

/-- Modelled from the spec: one step of the §4.3 confirmation state machine.
Returns the updated session, the list of statuses traversed (an edit passes
through EDITED and lands on CONFIRMED with no second confirmation round),
and the candidate committed by this step, if any.  Terminal statuses absorb
every input with no commit. -/
def stepSession (s : ConfirmationSession) (i : UserInput) :
    ConfirmationSession × List SessionStatus × Option TradeCandidate :=
  match s.status, i with
  | .PENDING, .confirm =>
      ({ s with status := .CONFIRMED }, [.CONFIRMED], some s.candidate)
  | .PENDING, .reject =>
      ({ s with status := .REJECTED }, [.REJECTED], none)
  | .PENDING, .edit e =>
      let merged := mergeEdit s.candidate e
      ({ s with status := .CONFIRMED, candidate := merged },
        [.EDITED, .CONFIRMED], some merged)
  | .PENDING, .expire =>
      ({ s with status := .EXPIRED }, [.EXPIRED], none)
  | _, _ => (s, [], none)

/-- Run a session through a whole sequence of inputs, collecting every
candidate committed along the way. -/
def runSession : ConfirmationSession → List UserInput → ConfirmationSession × List TradeCandidate
  | s, [] => (s, [])
  | s, i :: rest =>
    let r := stepSession s i
    let rr := runSession r.1 rest
    (rr.1, r.2.2.toList ++ rr.2)

/-- Modelled from the spec: §4.3/§5 autonomous expiry — a session past its
`expires_at` moves to EXPIRED, but only if its status is still PENDING
(a racing confirm that landed first wins). -/
def expireIfDue (now : ℕ) (s : ConfirmationSession) : ConfirmationSession :=
  if s.status = SessionStatus.PENDING ∧ s.expires_at ≤ now then
    { s with status := .EXPIRED }
  else s

/-- Modelled from the spec: handling a user input at wall-clock time `now`
applies due expiry first, then the state machine step. -/
def handleInputAt (now : ℕ) (s : ConfirmationSession) (i : UserInput) :
    ConfirmationSession × List SessionStatus × Option TradeCandidate :=
  stepSession (expireIfDue now s) i

/-- Subscription plans (§4.4). -/
inductive Plan where
  | free
  | pro
  | elite
deriving DecidableEq, Repr

/-- Free plan: max 30 committed trades per rolling month (§4.4, API docs). -/
def FREE_MONTHLY_TRADE_CAP : ℕ := 30

/-- Free plan: max 10 extraction attempts per rolling hour (§4.4). -/
def FREE_HOURLY_ATTEMPT_CAP : ℕ := 10

/-- Per-user counters read/written by the Rate & Quota Governor (§3). -/
structure QuotaState where
  hourly : ℕ
  monthly : ℕ
deriving DecidableEq, Repr

/-- Modelled from the spec: the Rate & Quota Governor admission check of
§4.4, evaluated before any model invocation.  Paid plans are unlimited. -/
def quotaAdmit (plan : Plan) (q : QuotaState) : Bool :=
  match plan with
  | .free =>
      decide (q.monthly < FREE_MONTHLY_TRADE_CAP)
        && decide (q.hourly < FREE_HOURLY_ATTEMPT_CAP)
  | .pro => true
  | .elite => true

/-- A committed, persisted trade (§3): candidate shape minus confidence,
plus identifier and owner. -/
structure Trade where
  id : ℕ
  user_id : ℕ
  instrument : String
  direction : String
  entry_price : Option ℚ
  exit_price : Option ℚ
  stop_loss : Option ℚ
  take_profit : Option ℚ
  result : Option String
  r_multiple : Option ℚ
  emotion : Option String
  mistakes : List String
  notes : Option String
deriving DecidableEq, Repr

/-- Commit-time validation failure (§4.5). -/
inductive CommitError where
  | invalidTradeData (field : String) (reason : String)
deriving DecidableEq, Repr

/-- One price check: a present negative value is a violation. -/
def validatePrice (field : String) (v? : Option ℚ) (rest : Option CommitError) : Option CommitError :=
  match v? with
  | some v => if v < 0 then some (.invalidTradeData field "negative") else rest
  | none => rest

/-- Prices, when present, must be non-negative (finiteness is automatic for
rationals). -/
def validatePrices (c : TradeCandidate) : Option CommitError :=
  validatePrice "entry_price" c.entry_price
    (validatePrice "exit_price" c.exit_price
      (validatePrice "stop_loss" c.stop_loss
        (validatePrice "take_profit" c.take_profit none)))

/-- Modelled from the spec: §4.5 domain validation of a finalized candidate
(mirrors the `trades` table constraints: instrument non-empty, direction in
{LONG, SHORT}, result when present in {WIN, LOSS, BREAK_EVEN}, prices when
present non-negative).  Returns the first violation, or `none` when valid. -/
def validateCandidate (c : TradeCandidate) : Option CommitError :=
  match c.instrument with
  | none => some (.invalidTradeData "instrument" "missing")
  | some ins =>
    if ins = "" then some (.invalidTradeData "instrument" "empty")
    else match c.direction with
    | none => some (.invalidTradeData "direction" "missing")
    | some d =>
      if ¬ validDirection d then some (.invalidTradeData "direction" "must be LONG or SHORT")
      else match c.result with
      | some r =>
        if ¬ validResult r then some (.invalidTradeData "result" "must be WIN, LOSS or BREAK_EVEN")
        else validatePrices c
      | none => validatePrices c

/-- Build the persisted trade from a validated candidate. -/
def mkTrade (uid tid : ℕ) (c : TradeCandidate) : Trade :=
  { id := tid
    user_id := uid
    instrument := c.instrument.getD ""
    direction := c.direction.getD ""
    entry_price := c.entry_price
    exit_price := c.exit_price
    stop_loss := c.stop_loss
    take_profit := c.take_profit
    result := c.result
    r_multiple := c.r_multiple
    emotion := c.emotion
    mistakes := c.mistakes
    notes := c.notes }

/-- Modelled from the spec: the Trade Commit Interface of §4.5 (absent
backend).  On validation failure it returns the error and the storage
collaborator's create-trade is called 0 times; on success it calls
create-trade exactly once and returns the generated trade.  The second
component counts create-trade calls. -/
def commitTrade (uid tid : ℕ) (c : TradeCandidate) : Except CommitError Trade × ℕ :=
  match validateCandidate c with
  | some e => (.error e, 0)
  | none => (.ok (mkTrade uid tid c), 1)

/-- Result of processing one inbound message end to end. -/
inductive PipelineResult where
  | quotaExceeded
  | extractionFailed
  | invalidTrade (e : CommitError)
  | committed (t : Trade)
  | awaitingConfirmation (s : ConfirmationSession)
deriving DecidableEq, Repr

/-- Observable outcome of one inbound message: result, updated quota
counters, and whether the model collaborator / media normalizer ran. -/
structure PipelineOutcome where
  result : PipelineResult
  quota : QuotaState
  modelInvoked : Bool
  normalizerRan : Bool
deriving DecidableEq, Repr

/-- Modelled from the spec: the §2 data flow for one inbound message
(absent backend entry point).  The governor is consulted first: on
rejection nothing else runs and the counters are untouched.  On admission
the hourly counter is incremented for the attempt, the normalizer runs for
non-text input, the model is invoked, and the monthly counter is
incremented only when a trade is actually committed. -/
def processInbound (plan : Plan) (q : QuotaState) (needsNormalize : Bool)
    (m : ModelOutput) (uid sid tid now : ℕ) : PipelineOutcome :=
  if quotaAdmit plan q then
    let q1 : QuotaState := { q with hourly := q.hourly + 1 }
    match extractCandidate m with
    | none => ⟨.extractionFailed, q1, true, needsNormalize⟩
    | some c =>
      match confidenceGate c uid sid now with
      | .awaitConfirmation s => ⟨.awaitingConfirmation s, q1, true, needsNormalize⟩
      | .autoCommit c' =>
        match commitTrade uid tid c' with
        | (.error e, _) => ⟨.invalidTrade e, q1, true, needsNormalize⟩
        | (.ok t, _) =>
          ⟨.committed t, { q1 with monthly := q1.monthly + 1 }, true, needsNormalize⟩
  else ⟨.quotaExceeded, q, false, false⟩

/-! ## Claim-side characterizations and concrete fixtures -/

/-- Claim-side characterization of the streak scan: on the sorted list
with non-WIN/LOSS trades discarded, the streak is the leading run of equal
results, tagged with that leading result. -/
def specStreak (l : List DashTrade) : String × ℕ :=
  match l.filter isWinLoss with
  | [] => ("", 0)
  | t :: _ => (t.result, leadRunLen (l.filter isWinLoss))

/-- Claim-side domain-validity conditions of §4.5: instrument present and
non-empty, direction present and in {LONG, SHORT}, result in
{WIN, LOSS, BREAK_EVEN} when present, prices non-negative when present. -/
def validCommitSpec (c : TradeCandidate) : Prop :=
  (∃ ins, c.instrument = some ins ∧ ins ≠ "")
    ∧ (∃ d, c.direction = some d ∧ validDirection d = true)
    ∧ (∀ r, c.result = some r → validResult r = true)
    ∧ (∀ v, c.entry_price = some v → 0 ≤ v)
    ∧ (∀ v, c.exit_price = some v → 0 ≤ v)
    ∧ (∀ v, c.stop_loss = some v → 0 ≤ v)
    ∧ (∀ v, c.take_profit = some v → 0 ≤ v)

/-- Fixture: a winning trade at the given timestamp. -/
def exTradeWin (ts : ℕ) : DashTrade :=
  { id := "w", instrument := "XAUUSD", direction := "LONG", result := "WIN",
    r_multiple := none, trade_timestamp := some ts }

/-- Fixture: a losing trade at the given timestamp. -/
def exTradeLoss (ts : ℕ) : DashTrade :=
  { id := "l", instrument := "XAUUSD", direction := "SHORT", result := "LOSS",
    r_multiple := none, trade_timestamp := some ts }

/-- Fixture: a break-even trade at the given timestamp. -/
def exTradeBE (ts : ℕ) : DashTrade :=
  { id := "b", instrument := "XAUUSD", direction := "LONG", result := "BREAK_EVEN",
    r_multiple := none, trade_timestamp := some ts }

/-- Fixture: model output with the instrument missing. -/
def exOutputNoInstrument : ModelOutput :=
  { instrument := none, direction := some "LONG", entry_price := none,
    exit_price := none, stop_loss := none, take_profit := none, result := none,
    r_multiple := none, emotion := none, mistakes := [], notes := none,
    confidence := mkRat 9 10 }

/-- Fixture: a low-confidence candidate. -/
def exCandidateLow : TradeCandidate :=
  { instrument := some "XAUUSD", direction := some "LONG", entry_price := none,
    exit_price := none, stop_loss := none, take_profit := none, result := none,
    r_multiple := none, emotion := none, mistakes := [], notes := none,
    confidence := mkRat 1 2 }

/-- Fixture: a high-confidence candidate. -/
def exCandidateHigh : TradeCandidate :=
  { exCandidateLow with confidence := mkRat 9 10 }

/-- Fixture: a pending confirmation session holding the low candidate. -/
def exSessionPending : ConfirmationSession :=
  { session_id := 1, owning_user_id := 7, candidate := exCandidateLow,
    created_at := 100, expires_at := 100 + SESSION_TTL_SECONDS, status := .PENDING }

/-- Fixture: the same session already confirmed. -/
def exSessionConfirmed : ConfirmationSession :=
  { exSessionPending with status := .CONFIRMED }

/-- Fixture: an edit payload overriding instrument and entry price only. -/
def exEdit : EditPayload :=
  { instrument := some "EURUSD", direction := none, entry_price := some 1,
    exit_price := none, stop_loss := none, take_profit := none, result := none,
    r_multiple := none, emotion := none, mistakes := none, notes := none }

end Trademynd

namespace Trademynd

/-! ## Theorems -/

/-- C10: `maskChatId` returns "Unavailable" exactly when the chat id is
null/undefined; for a numeric id it returns `max(len − 4, 2)` asterisks
followed by the last four characters of the id's decimal string, so two ids
agreeing on decimal length and last four characters produce identical
output — the leading digits never influence the display. -/
theorem maskChatId_masks_leading_digits :
    maskChatId none = "Unavailable"
    ∧ (∀ n : ℤ, maskChatId (some n) ≠ "Unavailable")
    ∧ (∀ n : ℤ, maskChatId (some n) =
        String.mk (List.replicate (max ((toString n).data.length - 4) 2) (Char.ofNat 42)
          ++ lastFour (toString n)))
    ∧ (∀ m n : ℤ, (toString m).data.length = (toString n).data.length →
        lastFour (toString m) = lastFour (toString n) →
        maskChatId (some m) = maskChatId (some n)) := by
  refine ⟨rfl, ?_, fun n => rfl, ?_⟩
  · intro n h
    have hd : (List.replicate (max ((toString n).data.length - 4) 2) (Char.ofNat 42)
        ++ (toString n).data.drop ((toString n).data.length - 4)) = "Unavailable".data :=
      congrArg String.data h
    have hk2 : 2 ≤ max ((toString n).data.length - 4) 2 := le_max_right _ 2
    have hk : max ((toString n).data.length - 4) 2
        = (max ((toString n).data.length - 4) 2 - 1) + 1 := by omega
    rw [hk, List.replicate_succ] at hd
    have hh := congrArg List.head? hd
    rw [List.cons_append, List.head?_cons] at hh
    exact absurd hh (by decide)
  · intro m n hlen hlast
    have h2 : (toString m).data.drop ((toString m).data.length - 4)
        = (toString n).data.drop ((toString n).data.length - 4) := hlast
    show String.mk _ = String.mk _
    rw [h2, hlen]

/-- C10 witness: two chat ids with equal decimal length and equal last four
digits are masked identically. -/
theorem maskChatId_masks_leading_digits_witness :
    maskChatId (some 123456789) = maskChatId (some 999996789) :=
  maskChatId_masks_leading_digits.2.2.2 123456789 999996789 (by decide) (by decide)

/-- C9: the dashboard win rate is 0 for an empty trade list, equals
100 · wins / total otherwise, and is always well defined and within
[0, 100]. -/
theorem winRate_spec :
    winRate [] = 0
    ∧ (∀ trades : List DashTrade, trades ≠ [] →
        winRate trades = 100 * (winCount trades : ℚ) / (trades.length : ℚ))
    ∧ ∀ trades : List DashTrade, 0 ≤ winRate trades ∧ winRate trades ≤ 100 := by
  refine ⟨rfl, ?_, ?_⟩
  · intro trades h
    have hlen : trades.length ≠ 0 := by simpa using h
    simp only [winRate, if_neg hlen]
    ring
  · intro trades
    by_cases h : trades.length = 0
    · simp [winRate, h]
    · have hpos : (0 : ℚ) < (trades.length : ℚ) := by
        exact_mod_cast Nat.pos_of_ne_zero h
      have hc : (winCount trades : ℚ) ≤ (trades.length : ℚ) := by
        exact_mod_cast List.length_filter_le _ _
      have hc0 : (0 : ℚ) ≤ (winCount trades : ℚ) := by positivity
      have hdiv : (winCount trades : ℚ) / (trades.length : ℚ) ≤ 1 := by
        rw [div_le_one hpos]; exact hc
      have hdiv0 : (0 : ℚ) ≤ (winCount trades : ℚ) / (trades.length : ℚ) :=
        div_nonneg hc0 hpos.le
      simp only [winRate, if_neg h]
      constructor
      · nlinarith
      · nlinarith

/-- C9 witness: the win rate of a concrete two-trade list is
100 · wins / total. -/
theorem winRate_spec_witness :
    winRate [exTradeWin 1, exTradeLoss 0]
      = 100 * (winCount [exTradeWin 1, exTradeLoss 0] : ℚ)
          / (([exTradeWin 1, exTradeLoss 0] : List DashTrade).length : ℚ) :=
  winRate_spec.2.1 [exTradeWin 1, exTradeLoss 0] (by simp)

/-- C2: the confidence gate forwards a candidate straight to the commit
interface, creating no session, exactly when its confidence reaches the
auto-accept threshold; below the threshold it always creates a PENDING
confirmation session holding the candidate instead of committing. -/
theorem confidenceGate_spec :
    ∀ (c : TradeCandidate) (uid sid now : ℕ),
      (AUTO_ACCEPT_THRESHOLD ≤ c.confidence →
        confidenceGate c uid sid now = .autoCommit c)
      ∧ (c.confidence < AUTO_ACCEPT_THRESHOLD →
        confidenceGate c uid sid now = .awaitConfirmation
          { session_id := sid, owning_user_id := uid, candidate := c,
            created_at := now, expires_at := now + SESSION_TTL_SECONDS,
            status := .PENDING }) := by
  intro c uid sid now
  constructor
  · intro h
    unfold confidenceGate
    rw [if_pos h]
  · intro h
    unfold confidenceGate
    rw [if_neg (not_le.mpr h)]

/-- C2 witness: a 0.9-confidence candidate is auto-committed, a
0.5-confidence one opens a PENDING session. -/
theorem confidenceGate_spec_witness :
    confidenceGate exCandidateHigh 7 1 100 = .autoCommit exCandidateHigh
    ∧ confidenceGate exCandidateLow 7 1 100 = .awaitConfirmation exSessionPending :=
  ⟨(confidenceGate_spec exCandidateHigh 7 1 100).1 (by decide),
   (confidenceGate_spec exCandidateLow 7 1 100).2 (by decide)⟩

/-- C4: applying an edit to a PENDING session commits, through EDITED, the
merged candidate with no second confirmation round; every supplied edit
field overrides, every omitted field keeps the extracted value (never
cleared to absent), and the merged confidence is 1.0. -/
theorem editMerge_spec :
    ∀ (s : ConfirmationSession) (e : EditPayload), s.status = .PENDING →
      stepSession s (.edit e) =
        ({ s with status := .CONFIRMED, candidate := mergeEdit s.candidate e },
          [.EDITED, .CONFIRMED], some (mergeEdit s.candidate e))
      ∧ (mergeEdit s.candidate e).confidence = 1
      ∧ (e.instrument = none → (mergeEdit s.candidate e).instrument = s.candidate.instrument)
      ∧ (∀ v, e.instrument = some v → (mergeEdit s.candidate e).instrument = some v)
      ∧ (e.direction = none → (mergeEdit s.candidate e).direction = s.candidate.direction)
      ∧ (∀ v, e.direction = some v → (mergeEdit s.candidate e).direction = some v)
      ∧ (e.entry_price = none → (mergeEdit s.candidate e).entry_price = s.candidate.entry_price)
      ∧ (∀ v, e.entry_price = some v → (mergeEdit s.candidate e).entry_price = some v)
      ∧ (e.exit_price = none → (mergeEdit s.candidate e).exit_price = s.candidate.exit_price)
      ∧ (∀ v, e.exit_price = some v → (mergeEdit s.candidate e).exit_price = some v)
      ∧ (e.stop_loss = none → (mergeEdit s.candidate e).stop_loss = s.candidate.stop_loss)
      ∧ (∀ v, e.stop_loss = some v → (mergeEdit s.candidate e).stop_loss = some v)
      ∧ (e.take_profit = none → (mergeEdit s.candidate e).take_profit = s.candidate.take_profit)
      ∧ (∀ v, e.take_profit = some v → (mergeEdit s.candidate e).take_profit = some v)
      ∧ (e.result = none → (mergeEdit s.candidate e).result = s.candidate.result)
      ∧ (∀ v, e.result = some v → (mergeEdit s.candidate e).result = some v)
      ∧ (e.r_multiple = none → (mergeEdit s.candidate e).r_multiple = s.candidate.r_multiple)
      ∧ (∀ v, e.r_multiple = some v → (mergeEdit s.candidate e).r_multiple = some v)
      ∧ (e.emotion = none → (mergeEdit s.candidate e).emotion = s.candidate.emotion)
      ∧ (∀ v, e.emotion = some v → (mergeEdit s.candidate e).emotion = some v)
      ∧ (e.mistakes = none → (mergeEdit s.candidate e).mistakes = s.candidate.mistakes)
      ∧ (∀ v, e.mistakes = some v → (mergeEdit s.candidate e).mistakes = v)
      ∧ (e.notes = none → (mergeEdit s.candidate e).notes = s.candidate.notes)
      ∧ (∀ v, e.notes = some v → (mergeEdit s.candidate e).notes = some v) := by
  intro s e h
  rcases s with ⟨sid, uid, cand, ca, ea, st⟩
  subst h
  refine ⟨rfl, rfl, ?_, ?_, ?_, ?_, ?_, ?_, ?_, ?_, ?_, ?_, ?_, ?_, ?_, ?_, ?_, ?_,
    ?_, ?_, ?_, ?_, ?_, ?_⟩ <;>
  · intros
    simp_all [mergeEdit, overrideField]

/-- C4 witness: a concrete edit of a concrete PENDING session. -/
theorem editMerge_spec_witness :
    stepSession exSessionPending (.edit exEdit) =
      ({ exSessionPending with status := .CONFIRMED, candidate := mergeEdit exSessionPending.candidate exEdit },
        [.EDITED, .CONFIRMED], some (mergeEdit exSessionPending.candidate exEdit))
    ∧ (mergeEdit exSessionPending.candidate exEdit).confidence = 1 :=
  ⟨(editMerge_spec exSessionPending exEdit rfl).1,
   (editMerge_spec exSessionPending exEdit rfl).2.1⟩

/-- A session whose status is terminal absorbs any single input: nothing
changes and nothing is committed. -/
theorem stepSession_of_terminal (s : ConfirmationSession) (i : UserInput)
    (h : terminalStatus s.status = true) : stepSession s i = (s, [], none) := by
  rcases s with ⟨sid, uid, cand, ca, ea, st⟩
  cases st <;> cases i <;> first
    | rfl
    | simp [terminalStatus] at h

/-- A session whose status is terminal absorbs any whole input sequence
with no commits. -/
theorem runSession_of_terminal (s : ConfirmationSession) (l : List UserInput)
    (h : terminalStatus s.status = true) : runSession s l = (s, []) := by
  induction l generalizing s with
  | nil => rfl
  | cons i rest ih =>
    simp only [runSession, stepSession_of_terminal s i h]
    simp [ih s h]

/-- C3: every status change of a confirmation session follows the allowed
edges PENDING→CONFIRMED, PENDING→EDITED, EDITED→CONFIRMED,
PENDING→REJECTED, PENDING→EXPIRED; CONFIRMED, REJECTED and EXPIRED are
terminal, so once terminal no input sequence (including duplicate
confirm/reject messages) changes the status or triggers a commit. -/
theorem sessionTransitions_spec :
    ∀ (s : ConfirmationSession) (i : UserInput),
      List.Chain (fun a b => allowedEdge a b = true) s.status (stepSession s i).2.1
      ∧ (stepSession s i).1.status = (stepSession s i).2.1.getLastD s.status
      ∧ (terminalStatus s.status = true → stepSession s i = (s, [], none))
      ∧ (∀ inputs : List UserInput, terminalStatus s.status = true →
          runSession s inputs = (s, [])) := by
  intro s i
  refine ⟨?_, ?_, fun h => stepSession_of_terminal s i h,
    fun inputs h => runSession_of_terminal s inputs h⟩
  · rcases s with ⟨sid, uid, cand, ca, ea, st⟩
    cases st <;> cases i <;> simp [stepSession, allowedEdge, List.chain_cons]
  · rcases s with ⟨sid, uid, cand, ca, ea, st⟩
    cases st <;> cases i <;> rfl

/-- C3 witness: a CONFIRMED session ignores a duplicate confirm and a whole
confirm/reject sequence, committing nothing. -/
theorem sessionTransitions_spec_witness :
    stepSession exSessionConfirmed .confirm = (exSessionConfirmed, [], none)
    ∧ runSession exSessionConfirmed [.confirm, .reject] = (exSessionConfirmed, []) :=
  ⟨(sessionTransitions_spec exSessionConfirmed .confirm).2.2.1 (by decide),
   (sessionTransitions_spec exSessionConfirmed .confirm).2.2.2 [.confirm, .reject] (by decide)⟩

/-- C7: a session created by the gate at time T carries
`expires_at = T + TTL` and status PENDING; once `T + TTL ≤ now` it expires
autonomously and a late confirm is absorbed with no commit; expiry applies
only while the status is still PENDING, so a racing confirm that landed
first wins. -/
theorem sessionExpiry_spec :
    ∀ (c : TradeCandidate) (uid sid T now : ℕ) (s : ConfirmationSession),
      confidenceGate c uid sid T = .awaitConfirmation s →
      (s.status = .PENDING ∧ s.expires_at = T + SESSION_TTL_SECONDS)
      ∧ (T + SESSION_TTL_SECONDS ≤ now →
          (expireIfDue now s).status = .EXPIRED
          ∧ handleInputAt now s .confirm = ({ s with status := .EXPIRED }, [], none))
      ∧ (∀ s' : ConfirmationSession, s'.status ≠ .PENDING → expireIfDue now s' = s') := by
  intro c uid sid T now s h
  unfold confidenceGate at h
  split at h
  · exact absurd h (by simp)
  · injection h with h'
    subst h'
    refine ⟨⟨rfl, rfl⟩, fun hnow => ?_, fun s' hs' => ?_⟩
    · have hexp : expireIfDue now
          { session_id := sid, owning_user_id := uid, candidate := c,
            created_at := T, expires_at := T + SESSION_TTL_SECONDS,
            status := .PENDING } =
          { session_id := sid, owning_user_id := uid, candidate := c,
            created_at := T, expires_at := T + SESSION_TTL_SECONDS,
            status := .EXPIRED } := by
        unfold expireIfDue
        rw [if_pos ⟨rfl, hnow⟩]
      refine ⟨by rw [hexp], ?_⟩
      unfold handleInputAt
      rw [hexp]
      rfl
    · rcases s' with ⟨sid', uid', cand', ca', ea', st'⟩
      unfold expireIfDue
      rw [if_neg]
      intro hc
      exact hs' hc.1

/-- C7 witness: the gate-created PENDING session at T = 100 expires at
T + TTL and a confirm arriving then is absorbed without a commit. -/
theorem sessionExpiry_spec_witness :
    (expireIfDue (100 + SESSION_TTL_SECONDS) exSessionPending).status = .EXPIRED
    ∧ handleInputAt (100 + SESSION_TTL_SECONDS) exSessionPending .confirm
        = ({ exSessionPending with status := .EXPIRED }, [], none) :=
  (sessionExpiry_spec exCandidateLow 7 1 100 (100 + SESSION_TTL_SECONDS)
    exSessionPending (by decide)).2.1 (Nat.le_refl _)

/-- A validated model output reports confidence within [0,1]. -/
theorem validOutput_confidence (m : ModelOutput) (hv : validOutput m = true) :
    0 ≤ m.confidence ∧ m.confidence ≤ 1 := by
  unfold validOutput at hv
  simp only [Bool.and_eq_true, decide_eq_true_eq] at hv
  tauto

/-- C1: every candidate produced by the extraction engine carries a
confidence in [0,1], and whenever its instrument or direction is absent
the confidence lies strictly below the auto-accept threshold — the
deterministic floor holds regardless of the model's self-reported value. -/
theorem extractionFloor_spec :
    ∀ (m : ModelOutput) (c : TradeCandidate), extractCandidate m = some c →
      (0 ≤ c.confidence ∧ c.confidence ≤ 1)
      ∧ ((c.instrument.isNone ∨ c.direction.isNone) →
          c.confidence < AUTO_ACCEPT_THRESHOLD) := by
  intro m c h
  unfold extractCandidate at h
  split at h
  case isTrue hv =>
    injection h with h'
    subst h'
    have hconf := validOutput_confidence m hv
    unfold applyConfidenceFloor
    split
    case isTrue hmiss =>
      refine ⟨⟨?_, ?_⟩, fun _ => ?_⟩
      · show 0 ≤ min (toCandidate m).confidence CONFIDENCE_FLOOR_CAP
        exact le_min hconf.1 (by decide)
      · show min (toCandidate m).confidence CONFIDENCE_FLOOR_CAP ≤ 1
        exact le_trans (min_le_left _ _) hconf.2
      · show min (toCandidate m).confidence CONFIDENCE_FLOOR_CAP < AUTO_ACCEPT_THRESHOLD
        exact lt_of_le_of_lt (min_le_right _ _) (by decide)
    case isFalse hpres =>
      refine ⟨⟨hconf.1, hconf.2⟩, fun hor => ?_⟩
      exact absurd (by rcases hor with h1 | h1 <;> simp_all) hpres
  case isFalse =>
    exact absurd h (by simp)

/-- C1 witness: an output missing its instrument, reported at confidence
0.9, comes out with in-range confidence strictly below the threshold. -/
theorem extractionFloor_spec_witness :
    (0 ≤ (applyConfidenceFloor (toCandidate exOutputNoInstrument)).confidence
      ∧ (applyConfidenceFloor (toCandidate exOutputNoInstrument)).confidence ≤ 1)
    ∧ (applyConfidenceFloor (toCandidate exOutputNoInstrument)).confidence
        < AUTO_ACCEPT_THRESHOLD :=
  ⟨(extractionFloor_spec exOutputNoInstrument _ (by decide)).1,
   (extractionFloor_spec exOutputNoInstrument _ (by decide)).2 (Or.inl (by decide))⟩

/-- One price check passes exactly when a present value is non-negative
and the continuation passes. -/
theorem validatePrice_eq_none (f : String) (v? : Option ℚ) (rest : Option CommitError) :
    validatePrice f v? rest = none ↔ ((∀ v, v? = some v → 0 ≤ v) ∧ rest = none) := by
  cases v? with
  | none => simp [validatePrice]
  | some v =>
    by_cases hv : v < 0
    · constructor
      · intro h
        rw [validatePrice, if_pos hv] at h
        exact absurd h (by simp)
      · rintro ⟨h0, _⟩
        exact absurd (h0 v rfl) (not_le.mpr hv)
    · rw [validatePrice, if_neg hv]
      constructor
      · intro h
        refine ⟨fun w hw => ?_, h⟩
        cases hw
        exact not_lt.mp hv
      · exact fun h => h.2

/-- The price chain passes exactly when all four present prices are
non-negative. -/
theorem validatePrices_eq_none (c : TradeCandidate) :
    validatePrices c = none ↔
      ((∀ v, c.entry_price = some v → 0 ≤ v) ∧ (∀ v, c.exit_price = some v → 0 ≤ v)
        ∧ (∀ v, c.stop_loss = some v → 0 ≤ v) ∧ (∀ v, c.take_profit = some v → 0 ≤ v)) := by
  unfold validatePrices
  rw [validatePrice_eq_none, validatePrice_eq_none, validatePrice_eq_none,
    validatePrice_eq_none]
  tauto

/-- Commit validation passes exactly on the §4.5 domain conditions. -/
theorem validateCandidate_eq_none (c : TradeCandidate) :
    validateCandidate c = none ↔ validCommitSpec c := by
  unfold validateCandidate validCommitSpec
  rcases hins : c.instrument with _ | ins <;>
    rcases hdir : c.direction with _ | d <;>
      rcases hres : c.result with _ | r <;>
        simp [hins, hdir, hres, validatePrices_eq_none] <;>
          split_ifs <;>
            simp_all [validatePrices_eq_none]

/-- C6: a finalized candidate satisfying the domain constraints is stored
by exactly one create-trade call and returned as the generated trade; any
violation yields InvalidTradeData(field, reason) with the storage
collaborator never called. -/
theorem commitValidation_spec :
    ∀ (uid tid : ℕ) (c : TradeCandidate),
      (validCommitSpec c → commitTrade uid tid c = (.ok (mkTrade uid tid c), 1))
      ∧ (¬ validCommitSpec c →
          ∃ f reason, commitTrade uid tid c = (.error (.invalidTradeData f reason), 0)) := by
  intro uid tid c
  constructor
  · intro hok
    unfold commitTrade
    rw [(validateCandidate_eq_none c).mpr hok]
  · intro hbad
    rcases hv : validateCandidate c with _ | e
    · exact absurd ((validateCandidate_eq_none c).mp hv) hbad
    · rcases e with ⟨f, r⟩
      exact ⟨f, r, by unfold commitTrade; rw [hv]⟩

/-- C6 witness: a concrete valid candidate is committed with exactly one
storage call. -/
theorem commitValidation_spec_witness :
    commitTrade 7 1 exCandidateHigh = (.ok (mkTrade 7 1 exCandidateHigh), 1) :=
  (commitValidation_spec 7 1 exCandidateHigh).1
    ⟨⟨"XAUUSD", rfl, by decide⟩, ⟨"LONG", rfl, rfl⟩,
      fun r hr => Option.noConfusion hr, fun v hv => Option.noConfusion hv,
      fun v hv => Option.noConfusion hv, fun v hv => Option.noConfusion hv,
      fun v hv => Option.noConfusion hv⟩

/-- C5: on the free plan, once the monthly counter has reached the cap the
next inbound request is rejected with QuotaExceeded before the normalizer
or the model runs and with counters untouched; every admitted attempt
increments the hourly counter whatever its outcome, and the monthly
counter increments exactly when a trade is committed. -/
theorem quotaGovernor_spec :
    ∀ (q : QuotaState) (nn : Bool) (m : ModelOutput) (uid sid tid now : ℕ),
      (q.monthly = FREE_MONTHLY_TRADE_CAP →
          processInbound .free q nn m uid sid tid now = ⟨.quotaExceeded, q, false, false⟩)
      ∧ ((processInbound .free q nn m uid sid tid now).result ≠ .quotaExceeded →
          (processInbound .free q nn m uid sid tid now).quota.hourly = q.hourly + 1)
      ∧ (∀ t, (processInbound .free q nn m uid sid tid now).result = .committed t →
          (processInbound .free q nn m uid sid tid now).quota.monthly = q.monthly + 1)
      ∧ ((∀ t, (processInbound .free q nn m uid sid tid now).result ≠ .committed t) →
          (processInbound .free q nn m uid sid tid now).quota.monthly = q.monthly) := by
  intro q nn m uid sid tid now
  have hcap : q.monthly = FREE_MONTHLY_TRADE_CAP →
      processInbound .free q nn m uid sid tid now = ⟨.quotaExceeded, q, false, false⟩ := by
    intro h
    have hadm : quotaAdmit .free q = false := by
      simp [quotaAdmit, h]
    unfold processInbound
    rw [hadm]
    simp
  refine ⟨hcap, ?_⟩
  by_cases hadm : quotaAdmit Plan.free q = true
  · rcases hE : extractCandidate m with _ | c
    · have hout : processInbound .free q nn m uid sid tid now
          = ⟨.extractionFailed, { q with hourly := q.hourly + 1 }, true, nn⟩ := by
        unfold processInbound
        rw [if_pos hadm, hE]
      refine ⟨fun _ => by simp [hout], fun t ht => ?_, fun _ => by simp [hout]⟩
      rw [hout] at ht
      exact absurd ht (by simp)
    · rcases hG : confidenceGate c uid sid now with c' | s
      · rcases hC : commitTrade uid tid c' with ⟨ec, k⟩
        cases ec with
        | error e =>
          have hout : processInbound .free q nn m uid sid tid now
              = ⟨.invalidTrade e, { q with hourly := q.hourly + 1 }, true, nn⟩ := by
            unfold processInbound
            rw [if_pos hadm, hE]
            dsimp only
            rw [hG]
            dsimp only
            rw [hC]
          refine ⟨fun _ => by simp [hout], fun t ht => ?_, fun _ => by simp [hout]⟩
          rw [hout] at ht
          exact absurd ht (by simp)
        | ok t0 =>
          have hout : processInbound .free q nn m uid sid tid now
              = ⟨.committed t0, { hourly := q.hourly + 1, monthly := q.monthly + 1 }, true, nn⟩ := by
            unfold processInbound
            rw [if_pos hadm, hE]
            dsimp only
            rw [hG]
            dsimp only
            rw [hC]
          refine ⟨fun _ => by simp [hout], fun t ht => by simp [hout], fun hno => ?_⟩
          rw [hout] at hno
          exact absurd rfl (hno t0)
      · have hout : processInbound .free q nn m uid sid tid now
            = ⟨.awaitingConfirmation s, { q with hourly := q.hourly + 1 }, true, nn⟩ := by
          unfold processInbound
          rw [if_pos hadm, hE]
          dsimp only
          rw [hG]
        refine ⟨fun _ => by simp [hout], fun t ht => ?_, fun _ => by simp [hout]⟩
        rw [hout] at ht
        exact absurd ht (by simp)
  · have hout : processInbound .free q nn m uid sid tid now
        = ⟨.quotaExceeded, q, false, false⟩ := by
      unfold processInbound
      rw [if_neg hadm]
    refine ⟨fun hne => ?_, fun t ht => ?_, fun _ => by simp [hout]⟩
    · rw [hout] at hne
      exact absurd rfl hne
    · rw [hout] at ht
      exact absurd ht (by simp)

/-- C5 witness: with 30 trades already committed this month on the free
plan, the next request is rejected before the normalizer and model run. -/
theorem quotaGovernor_spec_witness :
    processInbound .free ⟨0, FREE_MONTHLY_TRADE_CAP⟩ false exOutputNoInstrument 7 1 1 100
      = ⟨.quotaExceeded, ⟨0, FREE_MONTHLY_TRADE_CAP⟩, false, false⟩ :=
  (quotaGovernor_spec ⟨0, FREE_MONTHLY_TRADE_CAP⟩ false exOutputNoInstrument 7 1 1 100).1 rfl

/-- Inserting into the sorted list is a permutation of consing. -/
theorem insertDesc_perm (t : DashTrade) (l : List DashTrade) :
    (insertDesc t l).Perm (t :: l) := by
  induction l with
  | nil => exact List.Perm.refl _
  | cons u rest ih =>
    rw [insertDesc]
    split
    · exact List.Perm.refl _
    · exact (List.Perm.cons u ih).trans (List.Perm.swap t u rest)

/-- The dashboard's sort permutes its input. -/
theorem sortByTimestampDesc_perm (l : List DashTrade) :
    (sortByTimestampDesc l).Perm l := by
  induction l with
  | nil => exact List.Perm.refl _
  | cons t rest ih =>
    exact (insertDesc_perm t (rest.foldr insertDesc [])).trans (List.Perm.cons t ih)

/-- Once a current type is fixed, the scan counts exactly the leading
WIN/LOSS trades of that type among the remaining, skipped-through list. -/
theorem streakScan_of_ne_empty (l : List DashTrade) (ty : String) (hty : ty ≠ "") :
    ∀ n : ℕ, streakScan l ty n
      = (ty, n + ((l.filter isWinLoss).takeWhile (fun u => u.result = ty)).length) := by
  induction l with
  | nil => intro n; simp [streakScan]
  | cons t rest ih =>
    intro n
    by_cases hWL : t.result ≠ "WIN" ∧ t.result ≠ "LOSS"
    · have hf : isWinLoss t = false := by
        simp only [isWinLoss, Bool.or_eq_false_iff, decide_eq_false_iff_not]
        exact hWL
      rw [streakScan, if_pos hWL,
        List.filter_cons_of_neg (by rw [hf]; exact Bool.false_ne_true)]
      exact ih n
    · have hWL' : t.result = "WIN" ∨ t.result = "LOSS" := by tauto
      have hf : isWinLoss t = true := by
        rcases hWL' with h | h <;> simp [isWinLoss, h]
      rw [streakScan, if_neg hWL, if_neg hty, List.filter_cons_of_pos hf]
      by_cases heq : t.result = ty
      · rw [if_pos heq, ih (n + 1),
          List.takeWhile_cons_of_pos (by simp [heq]), List.length_cons]
        refine congrArg (Prod.mk ty) ?_
        omega
      · rw [if_neg heq, List.takeWhile_cons_of_neg (by simp [heq]), List.length_nil,
          Nat.add_zero]

/-- Starting from the empty current type, the scan computes exactly the
claim-side streak characterization. -/
theorem streakScan_eq_specStreak (l : List DashTrade) :
    streakScan l "" 0 = specStreak l := by
  induction l with
  | nil => rfl
  | cons t rest ih =>
    by_cases hWL : t.result ≠ "WIN" ∧ t.result ≠ "LOSS"
    · have hf : isWinLoss t = false := by
        simp only [isWinLoss, Bool.or_eq_false_iff, decide_eq_false_iff_not]
        exact hWL
      rw [streakScan, if_pos hWL, ih]
      unfold specStreak
      rw [List.filter_cons_of_neg (by rw [hf]; exact Bool.false_ne_true)]
    · have hWL' : t.result = "WIN" ∨ t.result = "LOSS" := by tauto
      have hf : isWinLoss t = true := by
        rcases hWL' with h | h <;> simp [isWinLoss, h]
      have hne : t.result ≠ "" := by
        rcases hWL' with h | h <;> simp [h]
      rw [streakScan, if_neg hWL, if_pos rfl,
        streakScan_of_ne_empty rest t.result hne 1]
      unfold specStreak
      rw [List.filter_cons_of_pos hf]
      rfl

/-- C8: `getCurrentStreak` returns "0" exactly when no trade has result
WIN or LOSS; otherwise, writing the trades sorted by descending timestamp
with non-WIN/LOSS results discarded as `t :: rest`, it returns the length
n ≥ 1 of the leading run of equal results followed by 'W' when that
leading result is WIN and 'L' otherwise — leading (older) trades beyond the
run never matter. -/
theorem getCurrentStreak_spec :
    ∀ trades : List DashTrade,
      (trades.filter isWinLoss = [] → getCurrentStreak trades = "0")
      ∧ (∀ t rest, (sortByTimestampDesc trades).filter isWinLoss = t :: rest →
          1 ≤ leadRunLen ((sortByTimestampDesc trades).filter isWinLoss)
          ∧ getCurrentStreak trades
              = toString (leadRunLen ((sortByTimestampDesc trades).filter isWinLoss))
                ++ (if t.result = "WIN" then "W" else "L")) := by
  intro trades
  constructor
  · intro h
    have hs : (sortByTimestampDesc trades).filter isWinLoss = [] := by
      have hp := (sortByTimestampDesc_perm trades).filter isWinLoss
      rw [h] at hp
      exact List.Perm.eq_nil hp
    unfold getCurrentStreak
    by_cases hlen : trades.length = 0
    · rw [if_pos hlen]
    · rw [if_neg hlen]
      simp [streakScan_eq_specStreak, specStreak, hs]
  · intro t rest h
    have hmem : isWinLoss t = true := by
      have : t ∈ (sortByTimestampDesc trades).filter isWinLoss := by
        rw [h]; exact List.mem_cons_self t rest
      exact (List.mem_filter.mp this).2
    have hWL' : t.result = "WIN" ∨ t.result = "LOSS" := by
      simpa [isWinLoss] using hmem
    have hne : t.result ≠ "" := by
      rcases hWL' with h1 | h1 <;> simp [h1]
    have hlen : trades.length ≠ 0 := by
      intro h0
      rw [List.length_eq_zero] at h0
      subst h0
      simp [sortByTimestampDesc] at h
    have hrun : 1 ≤ leadRunLen ((sortByTimestampDesc trades).filter isWinLoss) := by
      rw [h, leadRunLen]
      omega
    refine ⟨hrun, ?_⟩
    unfold getCurrentStreak
    rw [if_neg hlen]
    simp only [streakScan_eq_specStreak, specStreak, h]
    have hnc : ¬((t.result, leadRunLen (t :: rest)).1 = ""
        ∨ (t.result, leadRunLen (t :: rest)).2 = 0) := by
      rw [not_or]
      refine ⟨hne, ?_⟩
      rw [h] at hrun
      omega
    rw [if_neg hnc]

/-- C8 witness: a concrete list with a break-even trade inside the winning
run still yields a two-win streak tagged 'W'. -/
theorem getCurrentStreak_spec_witness :
    getCurrentStreak [exTradeWin 3, exTradeBE 2, exTradeWin 1, exTradeLoss 0]
      = toString (leadRunLen
            ((sortByTimestampDesc [exTradeWin 3, exTradeBE 2, exTradeWin 1, exTradeLoss 0]).filter
              isWinLoss))
        ++ (if (exTradeWin 3).result = "WIN" then "W" else "L") :=
  ((getCurrentStreak_spec [exTradeWin 3, exTradeBE 2, exTradeWin 1, exTradeLoss 0]).2
    (exTradeWin 3) [exTradeWin 1, exTradeLoss 0] (by decide)).2

end Trademynd
